import Mathlib

/-!
Shallow embedding of the caching/task core of the sobeys-scctower backend
(`src/apx-app/src/sobeys_scctower/backend/core.py` and `router.py`).

Timestamps (`time.time()` floats) are modelled as integers (only their ordering and differences matter to the code), row sets as
association lists of column/value strings.  The Databricks statement
execution response is modelled by the three fields the code consults
(`status.state`, `manifest`/`result` presence, `result.data_array`); the
zipping of `data_array` with the manifest columns is abstracted by letting
`dataArray` already hold the materialized row dictionaries.
-/

namespace SccTower

/-- Python `str.strip()`: remove leading and trailing whitespace (an
executable model of the trimming used to form cache keys and to test text
content for non-emptiness). -/
def pyStrip (s : String) : String :=
  ⟨((s.data.dropWhile Char.isWhitespace).reverse.dropWhile
      Char.isWhitespace).reverse⟩

/-- A materialized result row: ordered mapping column name → scalar value. -/
abbrev Row := List (String × String)

/-- An ordered sequence of rows, the materialized result set. -/
abbrev Rows := List Row

/-- The in-memory SQL cache `_sql_cache : dict[str, tuple[float, list[dict]]]`,
keyed by trimmed query text, holding `(created_at, rows)`. -/
abbrev SqlCache := List (String × ℤ × Rows)

/-- Python `cache_key in _sql_cache` / `_sql_cache[cache_key]`: first binding
for the key, if any. -/
def cacheLookup : SqlCache → String → Option (ℤ × Rows)
  | [], _ => none
  | (k, e) :: rest, key => if k = key then some e else cacheLookup rest key

/-- Python `_sql_cache[cache_key] = (now, rows)`: replace the binding in
place, or append a fresh one. -/
def cacheInsert : SqlCache → String → ℤ × Rows → SqlCache
  | [], key, e => [(key, e)]
  | (k, e') :: rest, key, e =>
      if k = key then (key, e) :: rest else (k, e') :: cacheInsert rest key e

/-- The parts of the Databricks `execute_statement` response that
`execute_sql` consults: `response.status.state` (a string; success is
`"SUCCEEDED"`), truthiness of `response.manifest` and `response.result`,
and `response.result.data_array` (`none` models an absent field, and an
empty list is falsy in Python). -/
structure SqlResponse where
  state : String
  hasManifest : Bool
  hasResult : Bool
  dataArray : Option Rows
deriving DecidableEq

/-- Truthiness of `response.manifest and response.result and
response.result.data_array` in `execute_sql`. -/
def SqlResponse.hasData (resp : SqlResponse) : Bool :=
  resp.hasManifest && resp.hasResult &&
    (match resp.dataArray with
     | some l => !l.isEmpty
     | none => false)

/-- The rows materialized from `data_array` (empty when absent). -/
def SqlResponse.rowsData (resp : SqlResponse) : Rows :=
  resp.dataArray.getD []

/-- Result of one `execute_sql` call: the returned rows, the cache map
after the call, and whether the backing executor was invoked. -/
structure ExecOut where
  rows : Rows
  cache : SqlCache
  invoked : Bool
deriving DecidableEq

/-- The execute-and-store tail of `execute_sql` (everything after the cache
lookup misses or is stale): run the statement; on non-`SUCCEEDED` state log
and return `[]` without touching the cache; on success store
`(now, rows)` — the zero-row branch stores `(now, [])` — and return the
rows. -/
def runBackingStep (cache : SqlCache) (key : String) (now : ℤ)
    (resp : SqlResponse) : ExecOut :=
  if resp.state ≠ "SUCCEEDED" then
    ⟨[], cache, true⟩
  else if resp.hasData then
    ⟨resp.rowsData, cacheInsert cache key (now, resp.rowsData), true⟩
  else
    ⟨[], cacheInsert cache key (now, []), true⟩

/-- `execute_sql(ws, config, query, ttl)` from `backend/core.py`, as a pure
function of the current cache map, the current time, and the backing
executor's response (consulted only when the cache misses or the entry is
stale).  `cache_key = query.strip()`; a cached entry is served iff
`now - cached_at < ttl`. -/
def execute_sql (cache : SqlCache) (now : ℤ) (query : String) (ttl : ℤ)
    (resp : SqlResponse) : ExecOut :=
  let cache_key := pyStrip query
  match cacheLookup cache cache_key with
  | some (cached_at, cached_rows) =>
      if now - cached_at < ttl then ⟨cached_rows, cache, false⟩
      else runBackingStep cache cache_key now resp
  | none => runBackingStep cache cache_key now resp

/-- `SQL_CACHE_TTL = 300` (5 minutes). -/
def SQL_CACHE_TTL : ℤ := 300

-- Basic lemmas about the cache map.

theorem cacheLookup_insert (cache : SqlCache) (key : String) (e : ℤ × Rows) :
    cacheLookup (cacheInsert cache key e) key = some e := by
  induction cache with
  | nil => simp [cacheInsert, cacheLookup]
  | cons kv rest ih =>
      obtain ⟨k, e'⟩ := kv
      by_cases h : k = key
      · simp [cacheInsert, cacheLookup, h]
      · simp [cacheInsert, cacheLookup, h, ih]

/-- When the executor is invoked and succeeds, `execute_sql` stores the
materialized rows under the trimmed key with timestamp `now` and returns
exactly those rows. -/
theorem execute_sql_success_stores (cache : SqlCache) (now : ℤ)
    (query : String) (ttl : ℤ) (resp : SqlResponse)
    (hs : resp.state = "SUCCEEDED")
    (hinv : (execute_sql cache now query ttl resp).invoked = true) :
    execute_sql cache now query ttl resp =
      ⟨(if resp.hasData then resp.rowsData else []),
       cacheInsert cache (pyStrip query)
         (now, if resp.hasData then resp.rowsData else []),
       true⟩ := by
  unfold execute_sql at *
  cases hl : cacheLookup cache (pyStrip query) with
  | none =>
      simp only [hl] at hinv ⊢
      unfold runBackingStep
      by_cases hd : resp.hasData <;> simp [hs, hd]
  | some e =>
      obtain ⟨cached_at, cached_rows⟩ := e
      simp only [hl] at hinv ⊢
      by_cases hfresh : now - cached_at < ttl
      · simp [hfresh] at hinv
      · simp only [hfresh, if_false]
        unfold runBackingStep
        by_cases hd : resp.hasData <;> simp [hs, hd]

/-- A fresh cached entry is served as-is: no executor invocation, no cache
change. -/
theorem execute_sql_hit (cache : SqlCache) (now : ℤ) (q : String) (ttl : ℤ)
    (resp : SqlResponse) (t0 : ℤ) (rs : Rows)
    (hl : cacheLookup cache (pyStrip q) = some (t0, rs))
    (hfresh : now - t0 < ttl) :
    execute_sql cache now q ttl resp = ⟨rs, cache, false⟩ := by
  unfold execute_sql
  simp [hl, hfresh]

/-- C1: within `ttl` of a successful, storing call, a trim-equal query is
served from the cache: the second call does not invoke the backing
executor, both calls return identical rows, and across the two calls the
backing query runs exactly once (the first call invoked it, the second did
not). -/
theorem execute_sql_fresh_hit_once (cache : SqlCache) (now1 now2 : ℤ)
    (q1 q2 : String) (ttl : ℤ) (resp1 resp2 : SqlResponse)
    (httl : 0 < ttl)
    (hs : resp1.state = "SUCCEEDED")
    (hinv : (execute_sql cache now1 q1 ttl resp1).invoked = true)
    (heq : pyStrip q2 = pyStrip q1)
    (hfresh : now2 - now1 < ttl) :
    (execute_sql (execute_sql cache now1 q1 ttl resp1).cache
        now2 q2 ttl resp2).invoked = false ∧
    (execute_sql (execute_sql cache now1 q1 ttl resp1).cache
        now2 q2 ttl resp2).rows = (execute_sql cache now1 q1 ttl resp1).rows ∧
    (execute_sql cache now1 q1 ttl resp1).invoked = true := by
  have h1 := execute_sql_success_stores cache now1 q1 ttl resp1 hs hinv
  have hl : cacheLookup (execute_sql cache now1 q1 ttl resp1).cache (pyStrip q2) =
      some (now1, if resp1.hasData then resp1.rowsData else []) := by
    rw [h1, heq]
    exact cacheLookup_insert cache (pyStrip q1) _
  have h2 := execute_sql_hit (execute_sql cache now1 q1 ttl resp1).cache
    now2 q2 ttl resp2 now1 (if resp1.hasData then resp1.rowsData else [])
    hl hfresh
  rw [h2]
  refine ⟨rfl, ?_, hinv⟩
  rw [h1]

/-- C1 witness: a concrete first call (success, one row) followed by a
whitespace-variant of the same query 100 time units later. -/
theorem execute_sql_fresh_hit_once_witness :
    (execute_sql ([] : SqlCache) 0 "SELECT 1" 300
        ⟨"SUCCEEDED", true, true, some [[("a", "1")]]⟩).invoked = true ∧
    ((execute_sql (execute_sql ([] : SqlCache) 0 "SELECT 1" 300
          ⟨"SUCCEEDED", true, true, some [[("a", "1")]]⟩).cache
        100 " SELECT 1 " 300 ⟨"FAILED", false, false, none⟩).invoked = false ∧
     (execute_sql (execute_sql ([] : SqlCache) 0 "SELECT 1" 300
          ⟨"SUCCEEDED", true, true, some [[("a", "1")]]⟩).cache
        100 " SELECT 1 " 300 ⟨"FAILED", false, false, none⟩).rows =
       (execute_sql ([] : SqlCache) 0 "SELECT 1" 300
          ⟨"SUCCEEDED", true, true, some [[("a", "1")]]⟩).rows ∧
     (execute_sql ([] : SqlCache) 0 "SELECT 1" 300
        ⟨"SUCCEEDED", true, true, some [[("a", "1")]]⟩).invoked = true) :=
  ⟨by decide,
   execute_sql_fresh_hit_once [] 0 100 "SELECT 1" " SELECT 1 " 300
     ⟨"SUCCEEDED", true, true, some [[("a", "1")]]⟩
     ⟨"FAILED", false, false, none⟩
     (by decide) rfl (by decide) (by decide) (by decide)⟩

/-- `runBackingStep` always reports that the executor was invoked. -/
theorem runBackingStep_invoked (cache : SqlCache) (key : String) (now : ℤ)
    (resp : SqlResponse) : (runBackingStep cache key now resp).invoked = true := by
  unfold runBackingStep
  by_cases h1 : resp.state ≠ "SUCCEEDED" <;> by_cases h2 : resp.hasData <;>
    simp [h1, h2]

/-- C2: a backing-executor failure (non-`SUCCEEDED` state) leaves the cache
map exactly as it was before the call; when the executor was actually
invoked the call returns the empty sequence; and any previously stored
fresh entry for the same key is still present and still servable
afterwards.  (`execute_sql` is a total function, so no exception reaches
the caller.) -/
theorem execute_sql_failure_frame (cache : SqlCache) (now : ℤ)
    (query : String) (ttl : ℤ) (resp : SqlResponse)
    (hf : resp.state ≠ "SUCCEEDED") :
    (execute_sql cache now query ttl resp).cache = cache ∧
    ((execute_sql cache now query ttl resp).invoked = true →
      (execute_sql cache now query ttl resp).rows = []) ∧
    (∀ (resp2 : SqlResponse) (now2 t0 : ℤ) (rs : Rows),
      cacheLookup cache (pyStrip query) = some (t0, rs) → now2 - t0 < ttl →
        execute_sql (execute_sql cache now query ttl resp).cache
          now2 query ttl resp2 = ⟨rs, cache, false⟩) := by
  have hmain : (execute_sql cache now query ttl resp).cache = cache ∧
      ((execute_sql cache now query ttl resp).invoked = true →
        (execute_sql cache now query ttl resp).rows = []) := by
    unfold execute_sql runBackingStep
    cases hl : cacheLookup cache (pyStrip query) with
    | none => simp [hl, hf]
    | some e =>
        obtain ⟨t0, rs⟩ := e
        by_cases hfresh : now - t0 < ttl <;> simp [hl, hfresh, hf]
  refine ⟨hmain.1, hmain.2, ?_⟩
  intro resp2 now2 t0 rs hl hfresh
  rw [hmain.1]
  exact execute_sql_hit cache now2 query ttl resp2 t0 rs hl hfresh

/-- C2 witness: a stale entry for `"SELECT 1"` exists, the executor is
invoked at time 400 and fails; the cache is untouched and the call returns
no rows. -/
theorem execute_sql_failure_frame_witness :
    (("FAILED" : String) ≠ "SUCCEEDED") ∧
    (execute_sql [("SELECT 1", ((0 : ℤ), [[("a", "1")]]))] 400 "SELECT 1" 300
        ⟨"FAILED", false, false, none⟩).cache =
      [("SELECT 1", ((0 : ℤ), [[("a", "1")]]))] ∧
    (execute_sql [("SELECT 1", ((0 : ℤ), [[("a", "1")]]))] 400 "SELECT 1" 300
        ⟨"FAILED", false, false, none⟩).rows = [] := by
  refine ⟨by decide, ?_, ?_⟩
  · exact (execute_sql_failure_frame _ _ _ _ _ (by decide)).1
  · exact (execute_sql_failure_frame
      [("SELECT 1", ((0 : ℤ), [[("a", "1")]]))] 400 "SELECT 1" 300
      ⟨"FAILED", false, false, none⟩ (by decide)).2.1 (by decide)

/-- C8: once at least `ttl` has elapsed since the stored entry's
`created_at`, a call with the same (trim-equal) query text invokes the
backing executor again instead of serving the stored rows. -/
theorem execute_sql_stale_reexecutes (cache : SqlCache) (now : ℤ)
    (query : String) (ttl : ℤ) (resp : SqlResponse) (t0 : ℤ) (rs : Rows)
    (hl : cacheLookup cache (pyStrip query) = some (t0, rs))
    (hstale : ttl ≤ now - t0) :
    (execute_sql cache now query ttl resp).invoked = true := by
  unfold execute_sql
  simp [hl, not_lt.mpr hstale, runBackingStep_invoked]

/-- C8 witness: an entry stored at time 0 is exactly 300 old at time 300,
so the executor is invoked again. -/
theorem execute_sql_stale_reexecutes_witness :
    cacheLookup [("SELECT 1", ((0 : ℤ), [[("a", "1")]]))] (pyStrip "SELECT 1") =
      some ((0 : ℤ), [[("a", "1")]]) ∧
    (300 : ℤ) ≤ 300 - 0 ∧
    (execute_sql [("SELECT 1", ((0 : ℤ), [[("a", "1")]]))] 300 "SELECT 1" 300
        ⟨"SUCCEEDED", true, true, some [[("a", "1")]]⟩).invoked = true :=
  ⟨by decide, by decide,
   execute_sql_stale_reexecutes [("SELECT 1", ((0 : ℤ), [[("a", "1")]]))] 300
     "SELECT 1" 300 ⟨"SUCCEEDED", true, true, some [[("a", "1")]]⟩ 0
     [[("a", "1")]] (by decide) (by decide)⟩

/-- C9: a successful execution with zero rows (absent or empty
`data_array`) stores an empty-rows entry timestamped `now` under the
trimmed key and returns the empty sequence; a trim-equal call within `ttl`
is then served from that entry without invoking the executor. -/
theorem execute_sql_zero_rows_cached (cache : SqlCache) (now1 now2 : ℤ)
    (q1 q2 : String) (ttl : ℤ) (resp1 resp2 : SqlResponse)
    (hs : resp1.state = "SUCCEEDED")
    (hz : resp1.dataArray = none ∨ resp1.dataArray = some [])
    (hinv : (execute_sql cache now1 q1 ttl resp1).invoked = true)
    (heq : pyStrip q2 = pyStrip q1)
    (hfresh : now2 - now1 < ttl) :
    (execute_sql cache now1 q1 ttl resp1).rows = [] ∧
    (execute_sql cache now1 q1 ttl resp1).cache =
      cacheInsert cache (pyStrip q1) (now1, []) ∧
    execute_sql (execute_sql cache now1 q1 ttl resp1).cache
        now2 q2 ttl resp2 =
      ⟨[], (execute_sql cache now1 q1 ttl resp1).cache, false⟩ := by
  have hd : resp1.hasData = false := by
    unfold SqlResponse.hasData
    rcases hz with h | h <;> simp [h]
  have h1 := execute_sql_success_stores cache now1 q1 ttl resp1 hs hinv
  simp only [hd, Bool.false_eq_true, if_false] at h1
  refine ⟨by rw [h1], by rw [h1], ?_⟩
  have hl : cacheLookup (execute_sql cache now1 q1 ttl resp1).cache
      (pyStrip q2) = some (now1, ([] : Rows)) := by
    rw [h1, heq]
    exact cacheLookup_insert cache (pyStrip q1) _
  exact execute_sql_hit _ now2 q2 ttl resp2 now1 [] hl hfresh

/-- C9 witness: a zero-row success at time 0 followed by the same query at
time 10 — served from the cached empty entry without re-execution. -/
theorem execute_sql_zero_rows_cached_witness :
    (execute_sql ([] : SqlCache) 0 "SELECT 2" 300
        ⟨"SUCCEEDED", true, true, none⟩).rows = [] ∧
    (execute_sql ([] : SqlCache) 0 "SELECT 2" 300
        ⟨"SUCCEEDED", true, true, none⟩).cache =
      cacheInsert [] (pyStrip "SELECT 2") (0, []) ∧
    execute_sql (execute_sql ([] : SqlCache) 0 "SELECT 2" 300
        ⟨"SUCCEEDED", true, true, none⟩).cache 10 "SELECT 2" 300
        ⟨"FAILED", false, false, none⟩ =
      ⟨[], (execute_sql ([] : SqlCache) 0 "SELECT 2" 300
          ⟨"SUCCEEDED", true, true, none⟩).cache, false⟩ :=
  execute_sql_zero_rows_cached [] 0 10 "SELECT 2" "SELECT 2" 300
    ⟨"SUCCEEDED", true, true, none⟩ ⟨"FAILED", false, false, none⟩
    rfl (Or.inl rfl) (by decide) rfl (by decide)

/-!
Task registry (`backend/router.py`): `_chat_tasks`, `_cleanup_old_tasks`,
`_run_mas_task`, `start_chat`, `poll_chat`.
-/

/-- One entry of `_chat_tasks`: the Python dict
`{"status": ..., "response": ..., "created_at": ...}`.  Every write made
by the worker replaces the whole dict and carries no `created_at`
(`none`); only the submitter's `pending` write sets it. -/
structure TaskEntry where
  status : String
  response : String
  created_at : Option ℤ
deriving DecidableEq

/-- `_chat_tasks : dict[str, dict[str, Any]]`, keyed by task id. -/
abbrev TaskRegistry := List (String × TaskEntry)

/-- `_chat_tasks.get(task_id)`. -/
def taskLookup : TaskRegistry → String → Option TaskEntry
  | [], _ => none
  | (k, v) :: rest, key => if k = key then some v else taskLookup rest key

/-- `_chat_tasks[task_id] = v`: replace the binding in place, or append. -/
def taskInsert : TaskRegistry → String → TaskEntry → TaskRegistry
  | [], key, v => [(key, v)]
  | (k, v') :: rest, key, v =>
      if k = key then (key, v) :: rest else (k, v') :: taskInsert rest key v

theorem taskLookup_insert (reg : TaskRegistry) (key : String) (v : TaskEntry) :
    taskLookup (taskInsert reg key v) key = some v := by
  induction reg with
  | nil => simp [taskInsert, taskLookup]
  | cons kv rest ih =>
      obtain ⟨k, v'⟩ := kv
      by_cases h : k = key
      · simp [taskInsert, taskLookup, h]
      · simp [taskInsert, taskLookup, h, ih]

/-- `_cleanup_old_tasks()`: remove every task with
`now - v.get("created_at", 0) > 300`; a missing `created_at` reads as 0. -/
def cleanup_old_tasks (reg : TaskRegistry) (now : ℤ) : TaskRegistry :=
  reg.filter (fun kv => decide (¬ now - kv.2.created_at.getD 0 > 300))

/-- One content element of a MAS output item: `c.get("type")` and
`c.get("text", "")`. -/
structure MasContent where
  ty : String
  text : String
deriving DecidableEq

/-- One item of the MAS response's `output` list: `item.get("type")`,
`item.get("role")`, whether `item.get("content", [])` is a list, and the
content elements themselves. -/
structure MasItem where
  ty : String
  role : String
  contentIsList : Bool
  content : List MasContent
deriving DecidableEq

/-- The parsed body of a MAS HTTP response: `resp.status_code` and
`data.get("output", [])`. -/
structure MasResponse where
  status_code : ℕ
  output : List MasItem
deriving DecidableEq

/-- The content-element test of `_run_mas_task`:
`c.get("type") == "output_text" and c.get("text", "").strip()`. -/
def hasAnswerText (c : MasContent) : Bool :=
  c.ty == "output_text" && pyStrip c.text != ""

/-- Inner scan of `_run_mas_task`: the first content element passing
`hasAnswerText`; yields that element's raw text, or `""` when there is
none. -/
def firstOutputText : List MasContent → String
  | [] => ""
  | c :: rest => if hasAnswerText c then c.text else firstOutputText rest

/-- The item guard of `_run_mas_task`:
`item.get("type") == "message" and item.get("role") == "assistant"`. -/
def isAssistantMessage (item : MasItem) : Bool :=
  item.ty == "message" && item.role == "assistant"

/-- The `for item in reversed(output)` walk of `_run_mas_task`, operating
on the already-reversed list: for an assistant-role message, take the text
found in its content (empty when `content` is not a list); stop when that
text is non-empty, else keep scanning. -/
def lastAnswerScan : List MasItem → String
  | [] => ""
  | item :: rest =>
      if isAssistantMessage item then
        (let t := if item.contentIsList then firstOutputText item.content
                  else ""
         if t ≠ "" then t else lastAnswerScan rest)
      else lastAnswerScan rest

/-- The answer text `_run_mas_task` extracts from a 200 response's
`output`. -/
def masAnswer (output : List MasItem) : String := lastAnswerScan output.reverse

/-- Outcome of the `httpx.post` call (and body parsing) inside the
worker's `try`: a response, or an exception with message `e`. -/
inductive MasCall where
  | response (resp : MasResponse)
  | failure (e : String)
deriving DecidableEq

/-- `_run_mas_task(task_id, messages, host, model, auth_headers)`: write
`running`, perform the call, then write the terminal entry.  Non-200 →
`error` with `f"MAS returned {status_code}"`; 200 → `done` with the
extracted answer; raised exception → `error` with its message. -/
def run_mas_task (reg : TaskRegistry) (task_id : String) (call : MasCall) :
    TaskRegistry :=
  let reg1 := taskInsert reg task_id ⟨"running", "", none⟩
  match call with
  | .failure e => taskInsert reg1 task_id ⟨"error", e, none⟩
  | .response resp =>
      if resp.status_code ≠ 200 then
        taskInsert reg1 task_id
          ⟨"error", "MAS returned " ++ toString resp.status_code, none⟩
      else
        taskInsert reg1 task_id ⟨"done", masAnswer resp.output, none⟩

/-- The response model `ChatTaskOut` (`task_id`, `status`, `response`). -/
structure ChatTaskOut where
  task_id : String
  status : String
  response : String
deriving DecidableEq

/-- The registry effect and return value of `start_chat` on the
submitter's own thread: janitor sweep, then the `pending` write (the
worker thread's steps are modelled separately, see `TaskStep`). -/
def start_chat (reg : TaskRegistry) (now : ℤ) (task_id : String) :
    TaskRegistry × ChatTaskOut :=
  let reg1 := cleanup_old_tasks reg now
  let reg2 := taskInsert reg1 task_id ⟨"pending", "", some now⟩
  (reg2, ⟨task_id, "pending", ""⟩)

/-- `poll_chat(task_id)`: a single `_chat_tasks.get`, echoing the queried
id; an absent id yields the error-shaped "Task not found" payload.  (The
Python guard `if not task` is falsy only for an absent entry: every stored
dict is non-empty.)  The registry is returned unchanged alongside the
payload to make the absence of writes explicit. -/
def poll_chat (reg : TaskRegistry) (task_id : String) :
    ChatTaskOut × TaskRegistry :=
  match taskLookup reg task_id with
  | none => (⟨task_id, "error", "Task not found"⟩, reg)
  | some t => (⟨task_id, t.status, t.response⟩, reg)

/-- C5: polling an id absent from the registry returns successfully (a
total function — nothing is raised) with status `"error"` and result
exactly `"Task not found"`. -/
theorem poll_chat_not_found (reg : TaskRegistry) (task_id : String)
    (h : taskLookup reg task_id = none) :
    poll_chat reg task_id = (⟨task_id, "error", "Task not found"⟩, reg) := by
  unfold poll_chat
  rw [h]

/-- C5 witness: polling an id never submitted, on the empty registry. -/
theorem poll_chat_not_found_witness :
    taskLookup [] "nope" = none ∧
    poll_chat [] "nope" = (⟨"nope", "error", "Task not found"⟩, []) :=
  ⟨rfl, poll_chat_not_found [] "nope" rfl⟩

/-- C10: polling never modifies the registry — the map after the call is
the map before it, whether or not the id is present — and the returned
payload always echoes the queried `task_id`. -/
theorem poll_chat_frame (reg : TaskRegistry) (task_id : String) :
    (poll_chat reg task_id).2 = reg ∧
    (poll_chat reg task_id).1.task_id = task_id := by
  unfold poll_chat
  cases taskLookup reg task_id <;> simp

/-- Stripping cannot turn the empty string into a non-empty one. -/
theorem pyStrip_ne_empty {s : String} (h : pyStrip s ≠ "") : s ≠ "" := by
  intro he
  subst he
  exact h rfl

/-- The item the spec says the worker must select: an assistant-role
message containing non-empty text content. -/
def isFinalAnswerItem (item : MasItem) : Bool :=
  isAssistantMessage item && item.contentIsList &&
    item.content.any hasAnswerText

theorem firstOutputText_ne_iff (cs : List MasContent) :
    firstOutputText cs ≠ "" ↔ cs.any hasAnswerText = true := by
  induction cs with
  | nil => simp [firstOutputText]
  | cons c rest ih =>
      unfold firstOutputText
      cases hc : hasAnswerText c with
      | true =>
          have htext : pyStrip c.text ≠ "" := by
            have := hc
            unfold hasAnswerText at this
            simp only [Bool.and_eq_true, beq_iff_eq, bne_iff_ne, ne_eq] at this
            exact this.2
          simp [List.any_cons, hc, pyStrip_ne_empty htext]
      | false => simp [List.any_cons, hc, ih]

/-- The backwards walk of `_run_mas_task` selects exactly the first
element of the reversed list satisfying the spec's description — i.e. the
last assistant-role message containing non-empty text content — and
returns the first qualifying text inside it (or `""` when no item
qualifies). -/
theorem lastAnswerScan_eq_find (l : List MasItem) :
    lastAnswerScan l =
      (match l.find? isFinalAnswerItem with
       | some it => firstOutputText it.content
       | none => "") := by
  induction l with
  | nil => rfl
  | cons item rest ih =>
      unfold lastAnswerScan
      cases ham : isAssistantMessage item with
      | false =>
          have hfi : isFinalAnswerItem item = false := by
            unfold isFinalAnswerItem
            simp [ham]
          rw [List.find?_cons_of_neg _ (by simp [hfi]), ← ih]
          simp [ham]
      | true =>
          cases hcl : item.contentIsList with
          | false =>
              have hfi : isFinalAnswerItem item = false := by
                unfold isFinalAnswerItem
                simp [hcl]
              rw [List.find?_cons_of_neg _ (by simp [hfi]), ← ih]
              simp [ham, hcl]
          | true =>
              by_cases ht : firstOutputText item.content ≠ ""
              · have hfi : isFinalAnswerItem item = true := by
                  unfold isFinalAnswerItem
                  simp [ham, hcl, (firstOutputText_ne_iff item.content).mp ht]
                rw [List.find?_cons_of_pos _ hfi]
                simp [ham, hcl, ht]
              · have hany : item.content.any hasAnswerText = false := by
                  rcases h' : item.content.any hasAnswerText with _ | _
                  · rfl
                  · exact absurd ((firstOutputText_ne_iff item.content).mpr h') ht
                have hfi : isFinalAnswerItem item = false := by
                  unfold isFinalAnswerItem
                  simp [hany]
                have ht' : firstOutputText item.content = "" := not_ne_iff.mp ht
                rw [List.find?_cons_of_neg _ (by simp [hfi]), ← ih]
                simp [ham, hcl, ht']

/-- C6: on a 200 response the worker ends the task with status `"done"`
and result equal to the text of the last output item that is an
assistant-role message containing non-empty text content (the first match
of a scan from the end); when no output item qualifies the result is the
empty string and the status is still `"done"`. -/
theorem run_mas_task_success (reg : TaskRegistry) (task_id : String)
    (resp : MasResponse) (h200 : resp.status_code = 200) :
    taskLookup (run_mas_task reg task_id (.response resp)) task_id =
      some ⟨"done",
        (match resp.output.reverse.find? isFinalAnswerItem with
         | some it => firstOutputText it.content
         | none => ""), none⟩ := by
  simp only [run_mas_task, h200]
  rw [if_neg (by simp : ¬((200 : ℕ) ≠ 200))]
  rw [taskLookup_insert]
  unfold masAnswer
  rw [lastAnswerScan_eq_find]

/-- C6 witness: a payload whose last assistant message says "42 units"
(preceded by a reasoning item and an earlier assistant turn) ends the task
with `status = "done"`, `result = "42 units"`. -/
theorem run_mas_task_success_witness :
    (200 : ℕ) = 200 ∧
    taskLookup (run_mas_task [] "t1" (.response ⟨200,
        [⟨"message", "assistant", true, [⟨"output_text", "interim"⟩]⟩,
         ⟨"reasoning", "", true, []⟩,
         ⟨"message", "assistant", true, [⟨"output_text", "42 units"⟩]⟩]⟩))
      "t1" = some ⟨"done", "42 units", none⟩ := by
  refine ⟨rfl, ?_⟩
  rw [run_mas_task_success [] "t1" _ rfl]
  decide

/-- C7: on a non-200 status code the worker ends the task with status
`"error"` and result `"MAS returned {code}"`, a diagnostic that contains
the status code; nothing is raised (the worker is a total function). -/
theorem run_mas_task_http_error (reg : TaskRegistry) (task_id : String)
    (resp : MasResponse) (h : resp.status_code ≠ 200) :
    taskLookup (run_mas_task reg task_id (.response resp)) task_id =
      some ⟨"error", "MAS returned " ++ toString resp.status_code, none⟩ ∧
    ∃ pre, "MAS returned " ++ toString resp.status_code =
      pre ++ toString resp.status_code := by
  constructor
  · simp only [run_mas_task]
    rw [if_pos h]
    exact taskLookup_insert _ _ _
  · exact ⟨"MAS returned ", rfl⟩

/-- C7 witness: HTTP 503 ends the task with `status = "error"` and
`result = "MAS returned 503"`, which contains "503". -/
theorem run_mas_task_http_error_witness :
    ((503 : ℕ) ≠ 200) ∧
    taskLookup (run_mas_task [] "t2" (.response ⟨503, []⟩)) "t2" =
      some ⟨"error", "MAS returned 503", none⟩ := by
  refine ⟨by decide, ?_⟩
  rw [(run_mas_task_http_error [] "t2" ⟨503, []⟩ (by decide)).1]
  decide

/-!
Interleaving model for one submitted task.  `start_chat` starts the worker
thread *before* its own janitor sweep and `pending` write, so the worker's
two registry writes may interleave arbitrarily with the submitter's two
registry actions.  A step is one Python statement touching `_chat_tasks`.
-/

/-- One atomic registry action of the submitter (`start_chat`) or of the
task's worker (`_run_mas_task`), for a fixed task id. -/
inductive TaskStep where
  | wRunning
  | wTerminal (st : String) (r : String)
  | sCleanup (now : ℤ)
  | sPending (now : ℤ)
deriving DecidableEq

/-- Effect of one step on the registry. -/
def applyTaskStep (task_id : String) (reg : TaskRegistry) :
    TaskStep → TaskRegistry
  | .wRunning => taskInsert reg task_id ⟨"running", "", none⟩
  | .wTerminal st r => taskInsert reg task_id ⟨st, r, none⟩
  | .sCleanup now => cleanup_old_tasks reg now
  | .sPending now => taskInsert reg task_id ⟨"pending", "", some now⟩

/-- Run a list of steps in order. -/
def runTaskSteps (task_id : String) (reg : TaskRegistry) :
    List TaskStep → TaskRegistry
  | [] => reg
  | s :: rest => runTaskSteps task_id (applyTaskStep task_id reg s) rest

/-- Status of the task after the first `n` steps of a trace, starting from
a registry in which the task is absent. -/
def statusAfter (task_id : String) (tr : List TaskStep) (n : ℕ) :
    Option String :=
  (taskLookup (runTaskSteps task_id [] (tr.take n)) task_id).map
    TaskEntry.status

/-- `IsMerge xs ys zs`: `zs` interleaves `xs` and `ys`, preserving the
internal order of each (the possible schedules of two threads). -/
inductive IsMerge :
    List TaskStep → List TaskStep → List TaskStep → Prop where
  | nil : IsMerge [] [] []
  | left {x xs ys zs} : IsMerge xs ys zs → IsMerge (x :: xs) ys (x :: zs)
  | right {y xs ys zs} : IsMerge xs ys zs → IsMerge xs (y :: ys) (y :: zs)

theorem IsMerge.right_nil {xs zs} (h : IsMerge xs [] zs) : zs = xs := by
  generalize hy : ([] : List TaskStep) = ys at h
  induction h with
  | nil => rfl
  | left _ ih => rw [ih hy]
  | right _ _ => exact absurd hy.symm (List.cons_ne_nil _ _)

theorem IsMerge.left_nil {ys zs} (h : IsMerge [] ys zs) : zs = ys := by
  generalize hx : ([] : List TaskStep) = xs at h
  induction h with
  | nil => rfl
  | left _ _ => exact absurd hx.symm (List.cons_ne_nil _ _)
  | right _ ih => rw [ih hx]

/-- The six schedules of two two-step threads. -/
theorem IsMerge.two_two {a b c d : TaskStep} {tr : List TaskStep}
    (h : IsMerge [a, b] [c, d] tr) :
    tr = [a, b, c, d] ∨ tr = [a, c, b, d] ∨ tr = [a, c, d, b] ∨
    tr = [c, a, b, d] ∨ tr = [c, a, d, b] ∨ tr = [c, d, a, b] := by
  cases h with
  | left h1 =>
      cases h1 with
      | left h2 => rw [h2.left_nil]; tauto
      | right h2 =>
          cases h2 with
          | left h3 => rw [h3.left_nil]; tauto
          | right h3 => rw [h3.right_nil]; tauto
  | right h1 =>
      cases h1 with
      | left h2 =>
          cases h2 with
          | left h3 => rw [h3.left_nil]; tauto
          | right h3 => rw [h3.right_nil]; tauto
      | right h2 => rw [h2.right_nil]; tauto

/-- Recognizes the submitter's `pending` write. -/
def TaskStep.isPendingWrite : TaskStep → Bool
  | .sPending _ => true
  | _ => false

/-- Recognizes the worker's terminal write. -/
def TaskStep.isTerminalWrite : TaskStep → Bool
  | .wTerminal _ _ => true
  | _ => false

/-- C3 counterexample: in the schedule where the worker finishes before
the submitter's `pending` write — reachable because `start_chat` starts
the thread before writing the registry — the terminal `done` status is
reverted to `pending` by a later step. -/
theorem task_status_revert_schedule :
    IsMerge [.sCleanup 400, .sPending 400]
      [.wRunning, .wTerminal "done" "42 units"]
      [.wRunning, .wTerminal "done" "42 units", .sCleanup 400,
        .sPending 400] ∧
    statusAfter "t1" [.wRunning, .wTerminal "done" "42 units",
      .sCleanup 400, .sPending 400] 2 = some "done" ∧
    statusAfter "t1" [.wRunning, .wTerminal "done" "42 units",
      .sCleanup 400, .sPending 400] 4 = some "pending" :=
  ⟨.right (.right (.left (.left .nil))), by decide, by decide⟩

/-- The janitor either removes the worker's `running` entry (it has no
`created_at`, read as 0) or keeps it unchanged, depending on the sweep
time. -/
theorem cleanup_running_cases (tid : String) (t1 : ℤ) :
    cleanup_old_tasks [(tid, ⟨"running", "", none⟩)] t1 = [] ∨
    cleanup_old_tasks [(tid, ⟨"running", "", none⟩)] t1 =
      [(tid, ⟨"running", "", none⟩)] := by
  unfold cleanup_old_tasks
  by_cases h : t1 - ((none : Option ℤ).getD 0) > 300 <;>
    simp only [Option.getD_none] at h
  · left
    simp [List.filter_cons]
    omega
  · right
    simp [List.filter_cons]
    omega

/-- C3 amended: in every schedule of the submitter and the worker in
which the submitter's `pending` write precedes the worker's terminal
write (the ordering the spec itself prescribes as the fix for the known
benign race), the status is terminally monotone: once a prefix of the
schedule shows `done` or `error`, no longer prefix shows `pending` or
`running` for the same task. -/
theorem task_status_monotone_of_pending_before_terminal
    (task_id : String) (t1 t2 : ℤ) (st r : String) (tr : List TaskStep)
    (hst : st = "done" ∨ st = "error")
    (hm : IsMerge [.sCleanup t1, .sPending t2]
      [.wRunning, .wTerminal st r] tr)
    (hord : tr.findIdx TaskStep.isPendingWrite <
      tr.findIdx TaskStep.isTerminalWrite)
    (i j : ℕ) (hij : i ≤ j)
    (hterm : statusAfter task_id tr i = some "done" ∨
      statusAfter task_id tr i = some "error") :
    statusAfter task_id tr j ≠ some "pending" ∧
    statusAfter task_id tr j ≠ some "running" := by
  have hnotptr : (some st ≠ some "pending" ∧ some st ≠ some "running") := by
    rcases hst with h' | h' <;> subst h' <;> exact ⟨by decide, by decide⟩
  rcases hm.two_two with h | h | h | h | h | h <;> subst h
  · -- schedule [cleanup, pending, running, terminal]
    have hA : ∀ k, k < 4 →
        ¬(statusAfter task_id [.sCleanup t1, .sPending t2, .wRunning,
            .wTerminal st r] k = some "done" ∨
          statusAfter task_id [.sCleanup t1, .sPending t2, .wRunning,
            .wTerminal st r] k = some "error") := by
      intro k hk
      interval_cases k <;>
        simp [statusAfter, runTaskSteps, applyTaskStep, cleanup_old_tasks,
          taskInsert, taskLookup]
    have hB : ∀ k, 4 ≤ k →
        statusAfter task_id [.sCleanup t1, .sPending t2, .wRunning,
          .wTerminal st r] k = some st := by
      intro k hk
      unfold statusAfter
      rw [List.take_of_length_le (by simpa using hk)]
      simp [runTaskSteps, applyTaskStep, cleanup_old_tasks, taskInsert,
        taskLookup]
    by_cases hi : i < 4
    · exact absurd hterm (hA i hi)
    · rw [hB j (le_trans (not_lt.mp hi) hij)]
      exact hnotptr
  · -- schedule [cleanup, running, pending, terminal]
    have hA : ∀ k, k < 4 →
        ¬(statusAfter task_id [.sCleanup t1, .wRunning, .sPending t2,
            .wTerminal st r] k = some "done" ∨
          statusAfter task_id [.sCleanup t1, .wRunning, .sPending t2,
            .wTerminal st r] k = some "error") := by
      intro k hk
      interval_cases k <;>
        simp [statusAfter, runTaskSteps, applyTaskStep, cleanup_old_tasks,
          taskInsert, taskLookup]
    have hB : ∀ k, 4 ≤ k →
        statusAfter task_id [.sCleanup t1, .wRunning, .sPending t2,
          .wTerminal st r] k = some st := by
      intro k hk
      unfold statusAfter
      rw [List.take_of_length_le (by simpa using hk)]
      simp [runTaskSteps, applyTaskStep, cleanup_old_tasks, taskInsert,
        taskLookup]
    by_cases hi : i < 4
    · exact absurd hterm (hA i hi)
    · rw [hB j (le_trans (not_lt.mp hi) hij)]
      exact hnotptr
  · -- schedule [cleanup, running, terminal, pending]: excluded by `hord`
    simp [List.findIdx_cons, TaskStep.isPendingWrite,
      TaskStep.isTerminalWrite] at hord
  · -- schedule [running, cleanup, pending, terminal]
    have hA : ∀ k, k < 4 →
        ¬(statusAfter task_id [.wRunning, .sCleanup t1, .sPending t2,
            .wTerminal st r] k = some "done" ∨
          statusAfter task_id [.wRunning, .sCleanup t1, .sPending t2,
            .wTerminal st r] k = some "error") := by
      intro k hk
      rcases cleanup_running_cases task_id t1 with hcl | hcl <;>
        interval_cases k <;>
          simp [statusAfter, runTaskSteps, applyTaskStep, taskInsert,
            taskLookup, hcl]
    have hB : ∀ k, 4 ≤ k →
        statusAfter task_id [.wRunning, .sCleanup t1, .sPending t2,
          .wTerminal st r] k = some st := by
      intro k hk
      unfold statusAfter
      rw [List.take_of_length_le (by simpa using hk)]
      rcases cleanup_running_cases task_id t1 with hcl | hcl <;>
        simp [runTaskSteps, applyTaskStep, taskInsert, taskLookup, hcl]
    by_cases hi : i < 4
    · exact absurd hterm (hA i hi)
    · rw [hB j (le_trans (not_lt.mp hi) hij)]
      exact hnotptr
  · -- schedule [running, cleanup, terminal, pending]: excluded by `hord`
    simp [List.findIdx_cons, TaskStep.isPendingWrite,
      TaskStep.isTerminalWrite] at hord
  · -- schedule [running, terminal, cleanup, pending]: excluded by `hord`
    simp [List.findIdx_cons, TaskStep.isPendingWrite,
      TaskStep.isTerminalWrite] at hord

/-- C3 amended witness: the fixed-order schedule cleanup, pending,
running, terminal, with the sweep at time 0; after 4 steps the status is
`done` and it never reverts. -/
theorem task_status_monotone_witness :
    statusAfter "t1" ([.sCleanup 0, .sPending 0, .wRunning,
        .wTerminal "done" "ans"] : List TaskStep) 4 = some "done" ∧
    (statusAfter "t1" ([.sCleanup 0, .sPending 0, .wRunning,
        .wTerminal "done" "ans"] : List TaskStep) 5 ≠ some "pending" ∧
     statusAfter "t1" ([.sCleanup 0, .sPending 0, .wRunning,
        .wTerminal "done" "ans"] : List TaskStep) 5 ≠ some "running") :=
  ⟨by decide,
   task_status_monotone_of_pending_before_terminal "t1" 0 0 "done" "ans"
     ([.sCleanup 0, .sPending 0, .wRunning, .wTerminal "done" "ans"])
     (Or.inl rfl) (.left (.left (.right (.right .nil)))) (by decide)
     4 5 (by decide) (Or.inl (by decide))⟩

/-- C4 evaluation at the failing input: a task submitted at time 900 (its
`pending` entry records `created_at = 900`) whose worker completed at time
950 — the worker's `done` write replaces the whole dict and drops
`created_at`, which the sweep then reads as 0 — is removed by the janitor
sweep at time 1000, although only 100 of the 300 retention time units have
passed since submission.  The sweep therefore does not remove exactly the
entries older than 300: it also removes every young entry the worker has
already written. -/
theorem cleanup_drops_recent_done_task :
    (1000 : ℤ) - 900 ≤ 300 ∧
    run_mas_task (start_chat [] 900 "t1").1 "t1"
        (.response ⟨200, [⟨"message", "assistant", true,
          [⟨"output_text", "42 units"⟩]⟩]⟩) =
      [("t1", ⟨"done", "42 units", none⟩)] ∧
    cleanup_old_tasks
      (run_mas_task (start_chat [] 900 "t1").1 "t1"
        (.response ⟨200, [⟨"message", "assistant", true,
          [⟨"output_text", "42 units"⟩]⟩]⟩)) 1000 = [] :=
  ⟨by decide, by decide, by decide⟩

end SccTower
